import Mathlib

/-!
Verification of the cdnbuddy-api orchestration core.

This file is a shallow embedding, in Lean 4, of the parts of the
`avvvet/cdnbuddy-api` Go repository that its specification makes claims
about: the in-memory execution-plan store (`internal/storage` style
`planstorage.Storage`), the per-session conversation history kept by the
messaging `Client`, the intent request/response round trip
(`Client.RequestIntentAnalysis`), the chat event handler wired up in
`cmd/server/main.go` (`setupEventHandlers`), plan construction
(`models.BuildExecutionPlan` and `generatePlanID`), the typed event
registry (`Subscriber.subscribe`) over NATS, and the CDN action
dispatcher (`cdn.Service.ExecuteIntent`).

Modelling conventions:
* Go `map[string]T` becomes an association list `List (String × T)` with
  `mapLookup` / `mapInsert` / `mapErase`; `map[string]*string` becomes
  `List (String × Option String)` (a `none` value is a stored nil
  pointer, a missing key is an absent entry).
* `time.Time` values are nanoseconds since the epoch, as `Nat`.  Each
  call the Go code makes to `time.Now()` is a separate explicit
  parameter, because nothing guarantees two such calls return the same
  instant.  `time.Time.After a b` is `b < a` (a strict comparison).
* Fallible calls return `Except String`; external collaborators (the
  NATS round trip, the CDN provider SDK, `json.Unmarshal` of a config
  blob) are parameters of the functions that call them.
* Observable side effects (published events, executor and provider
  invocations, handler runs) are returned as explicit traces (lists),
  in execution order.
* `fmt.Sprintf` with `%d` is modelled by `itoa`, a transcription of the
  fuel-indexed digit loop used by decimal rendering; `%s` and string
  concatenation are `String.append`.
-/

/-! ### Association-list model of Go maps -/

/-- Lookup in a Go map modelled as an association list. -/
def mapLookup {α : Type} (m : List (String × α)) (k : String) : Option α :=
  match m with
  | [] => none
  | (k', v) :: rest => if k' = k then some v else mapLookup rest k

/-- `m[k] = v` on a Go map: replace the binding if the key is present,
otherwise add it. -/
def mapInsert {α : Type} (m : List (String × α)) (k : String) (v : α) :
    List (String × α) :=
  match m with
  | [] => [(k, v)]
  | (k', v') :: rest =>
      if k' = k then (k, v) :: rest else (k', v') :: mapInsert rest k v

/-- `delete(m, k)` on a Go map. -/
def mapErase {α : Type} (m : List (String × α)) (k : String) :
    List (String × α) :=
  match m with
  | [] => []
  | (k', v') :: rest =>
      if k' = k then mapErase rest k else (k', v') :: mapErase rest k

theorem mapLookup_insert_self {α : Type} (m : List (String × α)) (k : String)
    (v : α) : mapLookup (mapInsert m k v) k = some v := by
  induction m with
  | nil => simp [mapInsert, mapLookup]
  | cons hd tl ih =>
      obtain ⟨k', v'⟩ := hd
      by_cases h : k' = k
      · simp [mapInsert, mapLookup, h]
      · simp [mapInsert, mapLookup, h, ih]

theorem mapLookup_insert_ne {α : Type} (m : List (String × α)) {k k' : String}
    (v : α) (h : k' ≠ k) : mapLookup (mapInsert m k' v) k = mapLookup m k := by
  induction m with
  | nil => simp [mapInsert, mapLookup, h]
  | cons hd tl ih =>
      obtain ⟨k'', v''⟩ := hd
      have h' : ¬k = k' := fun hh => h hh.symm
      by_cases h2 : k'' = k'
      · subst h2
        simp [mapInsert, mapLookup, h, h']
      · by_cases h3 : k'' = k <;>
          simp [mapInsert, mapLookup, h2, h3, h, h', ih]

theorem mapLookup_erase_self {α : Type} (m : List (String × α)) (k : String) :
    mapLookup (mapErase m k) k = none := by
  induction m with
  | nil => simp [mapErase, mapLookup]
  | cons hd tl ih =>
      obtain ⟨k', v'⟩ := hd
      by_cases h : k' = k <;> simp [mapErase, mapLookup, h, ih]

/-! ### Decimal rendering (`fmt.Sprintf("%d", n)` / `strconv` style)

The digit loop is written with an explicit fuel argument, exactly like
the fuelled digit loop decimal rendering actually uses, so that it is
structurally recursive and computes by kernel reduction. -/

/-- One step per fuel unit: emit the lowest decimal digit, recurse on
`n / 10` while more than one digit remains. -/
def itoaCore : Nat → Nat → List Char → List Char
  | 0, _, acc => acc
  | fuel + 1, n, acc =>
      let acc' := Nat.digitChar (n % 10) :: acc
      if n < 10 then acc' else itoaCore fuel (n / 10) acc'

/-- Decimal rendering of a natural number, most significant digit
first; `itoa 0 = "0"`. -/
def itoa (n : Nat) : String :=
  ⟨itoaCore (n + 1) n []⟩

/-- Decoder used only to prove `itoa` injective. -/
def decodeDec (l : List Char) : Nat :=
  l.foldl (fun a c => 10 * a + (c.toNat - 48)) 0

theorem digitChar_decode : ∀ d : Nat, d < 10 → (Nat.digitChar d).toNat - 48 = d := by
  decide

theorem itoaCore_foldl (fuel : Nat) :
    ∀ n acc a, n < fuel →
      ∃ p : Nat, 0 < p ∧
        List.foldl (fun a c => 10 * a + (c.toNat - 48)) a (itoaCore fuel n acc)
          = List.foldl (fun a c => 10 * a + (c.toNat - 48)) (a * p + n) acc := by
  induction fuel with
  | zero => intro n acc a h; omega
  | succ fuel ih =>
      intro n acc a h
      by_cases hn : n < 10
      · refine ⟨10, by norm_num, ?_⟩
        have hmod : n % 10 = n := Nat.mod_eq_of_lt hn
        simp [itoaCore, hn, List.foldl, hmod, digitChar_decode n hn, Nat.mul_comm]
      · have hdivlt : n / 10 < fuel := by
          have h1 : n / 10 < n := Nat.div_lt_self (by omega) (by norm_num)
          omega
        obtain ⟨p, hp, heq⟩ :=
          ih (n / 10) (Nat.digitChar (n % 10) :: acc) a hdivlt
        refine ⟨p * 10, by positivity, ?_⟩
        have hmodlt : n % 10 < 10 := Nat.mod_lt _ (by norm_num)
        have hdm : 10 * (a * p + n / 10) + n % 10 = a * (p * 10) + n := by
          have := Nat.div_add_mod n 10
          ring_nf
          omega
        simp only [itoaCore, hn, if_false]
        rw [heq]
        simp [List.foldl, digitChar_decode _ hmodlt, hdm]

theorem decodeDec_itoa (n : Nat) : decodeDec (itoa n).data = n := by
  obtain ⟨p, hp, heq⟩ := itoaCore_foldl (n + 1) n [] 0 (Nat.lt_succ_self n)
  simpa [decodeDec, itoa] using heq

theorem itoa_injective : Function.Injective itoa := by
  intro m n h
  have := congrArg (fun s => decodeDec s.data) h
  simpa [decodeDec_itoa] using this

/-! ### Data model (`internal/models/models.go`) -/

/-- `models.ConversationMessage`: one turn of a session's history. -/
structure ConversationMessage where
  role : String
  message : String
  timestamp : Nat
deriving DecidableEq, Repr

/-- `models.ActionSchema` (sent empty by the current code). -/
structure ActionSchema where
  action : String
  parameters : List String
deriving DecidableEq, Repr

/-- `models.IntentRequest`: the payload of the `intent.analyze`
request-reply call. -/
structure IntentRequest where
  sessionID : String
  userMessage : String
  conversationHistory : List ConversationMessage
  availableActions : List ActionSchema
deriving DecidableEq, Repr

/-- `models.IntentResponse`: the classifier's reply.  `parameters` is Go's
`map[string]*string`: a `some none` entry is a present key holding a nil
pointer. -/
structure IntentResponse where
  sessionID : String := ""
  action : Option String := none
  status : String := ""
  parameters : List (String × Option String) := []
  userMessage : String := ""
  errorCode : Option String := none
  errorMessage : Option String := none
deriving DecidableEq, Repr

/-- `models.ExecutionPlan`.  `createdAt` and `expiresAt` are the two
separate `time.Now()` readings the Go constructor stores. -/
structure ExecutionPlan where
  id : String
  title : String := ""
  description : String := ""
  steps : List String := []
  estimatedDuration : String := ""
  action : String := ""
  parameters : List (String × Option String) := []
  intentResponse : Option IntentResponse := none
  createdAt : Nat
  expiresAt : Nat
deriving DecidableEq, Repr

/-- `5 * time.Minute` in nanoseconds. -/
def fiveMinutesNs : Nat := 5 * 60 * 1000000000

/-- `models.generatePlanID`: `fmt.Sprintf("plan_%d", time.Now().UnixNano())`.
The single `time.Now().UnixNano()` reading is the explicit argument. -/
def generatePlanID (nowNano : Nat) : String :=
  "plan_" ++ itoa nowNano

/-- Go map indexing `intent.Parameters[key]` followed by the nil check the
code performs: a missing key and a stored nil pointer both give `none`. -/
def paramIndex (params : List (String × Option String)) (key : String) :
    Option String :=
  match mapLookup params key with
  | some (some v) => some v
  | _ => none

/-- `models.BuildExecutionPlan`.  The Go body reads the clock three times:
inside `generatePlanID` (`now1`), for `CreatedAt` (`now2`) and for
`ExpiresAt` (`now3`); the struct is then specialised by a switch on the
action. -/
def BuildExecutionPlan (intent : IntentResponse) (now1 now2 now3 : Nat) :
    ExecutionPlan :=
  let plan : ExecutionPlan :=
    { id := generatePlanID now1
      createdAt := now2
      expiresAt := now3 + fiveMinutesNs
      parameters := intent.parameters
      intentResponse := some intent
      estimatedDuration := "30 seconds" }
  let plan :=
    match intent.action with
    | some a => { plan with action := a }
    | none => plan
  match intent.action with
  | none => plan
  | some "SETUP_CDN" =>
      let domain := (paramIndex intent.parameters "domain").getD ""
      let origin := (paramIndex intent.parameters "origin").getD ""
      { plan with
        title := "Setup CDN for " ++ domain
        description := "Create and configure CDN service"
        steps := ["Create CDN service for " ++ domain,
                  "Configure origin: " ++ origin,
                  "Enable SSL certificate",
                  "Configure caching rules"] }
  | some "PURGE_CACHE" =>
      let domain := (paramIndex intent.parameters "domain").getD ""
      { plan with
        title := "Purge cache for " ++ domain
        description := "Clear CDN cache"
        steps := ["Clear cache for " ++ domain,
                  "Propagate changes across CDN nodes"] }
  | some _ =>
      { plan with
        title := "Execute action"
        description := "Process your request"
        steps := ["Execute requested action"] }

/-! ### Execution plan store (`planstorage.Storage`)

The store's state is its `plans` map.  `Get` only takes the read lock and
inspects the map, so its embedding passes the state through unchanged;
`Store` and `Delete` return the updated map.  The two `fmt.Errorf` sites
of `Get` are kept apart as a typed error, with `PlanErr.render` giving
the exact Go message. -/

/-- The two error conditions of `planstorage.Storage.Get`. -/
inductive PlanErr where
  | notFound (planID : String)
  | expired (planID : String)
deriving DecidableEq, Repr

/-- The Go error message each `PlanErr` constructor stands for. -/
def PlanErr.render : PlanErr → String
  | .notFound planID => "plan not found: " ++ planID
  | .expired planID => "plan expired: " ++ planID

/-- The `plans` map of `planstorage.Storage`. -/
def PlanMap : Type := List (String × ExecutionPlan)

namespace Storage

/-- `Storage.Store`: insert by `plan.ID`, always `nil` error. -/
def Store (s : PlanMap) (plan : ExecutionPlan) :
    PlanMap × Except String Unit :=
  (mapInsert s plan.id plan, Except.ok ())

/-- `Storage.Get`: lookup, then the expiry check
`time.Now().After(plan.ExpiresAt)`, which is the strict comparison
`plan.expiresAt < now`.  The map is returned unchanged: the method holds
only the read lock and never writes. -/
def Get (s : PlanMap) (planID : String) (now : Nat) :
    Except PlanErr ExecutionPlan × PlanMap :=
  match mapLookup s planID with
  | none => (Except.error (PlanErr.notFound planID), s)
  | some plan =>
      if plan.expiresAt < now then
        (Except.error (PlanErr.expired planID), s)
      else
        (Except.ok plan, s)

/-- `Storage.Delete`: remove the key unconditionally. -/
def Delete (s : PlanMap) (planID : String) : PlanMap :=
  mapErase s planID

/-- One tick of the `cleanupExpired` background sweep: delete every entry
with `now.After(plan.ExpiresAt)`. -/
def sweep (s : PlanMap) (now : Nat) : PlanMap :=
  s.filter (fun e => !(decide (e.2.expiresAt < now)))

end Storage

/-! ### Session history store (messaging `Client`)

`sessionHistory map[string][]models.ConversationMessage` guarded by one
mutex.  `getSessionHistory` reads under `RLock` and hands back an
element-wise copy (`copyHistory` below is that copy loop); the state is
returned unchanged.  `AppendToSession` initialises the session on first
use and appends one turn stamped with the current time. -/

/-- The `sessionHistory` map. -/
def SessionMap : Type := List (String × List ConversationMessage)

/-- The `make` + `copy` pair of `getSessionHistory`, element by element. -/
def copyHistory : List ConversationMessage → List ConversationMessage
  | [] => []
  | m :: rest => m :: copyHistory rest

theorem copyHistory_eq (l : List ConversationMessage) : copyHistory l = l := by
  induction l with
  | nil => rfl
  | cons m rest ih => simp [copyHistory, ih]

/-- `Client.getSessionHistory`: an unknown session yields the empty
sequence (not an error); a known one yields a fresh copy.  The store is
passed back unchanged (read lock only). -/
def getSessionHistory (c : SessionMap) (sessionID : String) :
    List ConversationMessage × SessionMap :=
  match mapLookup c sessionID with
  | none => ([], c)
  | some history => (copyHistory history, c)

/-- `Client.AppendToSession`: create the session record if absent, then
append a turn with the current timestamp. -/
def AppendToSession (c : SessionMap) (sessionID role message : String)
    (now : Nat) : SessionMap :=
  let c :=
    if (mapLookup c sessionID).isSome then c else mapInsert c sessionID []
  mapInsert c sessionID
    (((mapLookup c sessionID).getD []) ++ [⟨role, message, now⟩])

/-- `Client.clearSession`. -/
def clearSession (c : SessionMap) (sessionID : String) : SessionMap :=
  mapErase c sessionID

/-! ### Intent round trip and the chat handler

`Client.RequestIntentAnalysis` (the session-aware variant) snapshots the
history, appends the current user turn, then performs the 30-second
request-reply on `intent.analyze`.  The intent service is a parameter
`intentService`; `none` stands for a timeout, transport failure or an
undecodable reply.  The request actually sent is returned as part of the
result so that theorems can speak about its contents. -/

/-- `messaging.ChatEvent` (both the inbound chat message and the outbound
AI-response reuse this envelope). -/
structure ChatEvent where
  type : String
  userID : String
  sessionID : String
  message : String
  timestamp : Nat
deriving DecidableEq, Repr

/-- `EventAIResponse = "chat.ai_response"`. -/
def EventAIResponse : String := "chat.ai_response"

/-- The envelope `Publisher.PublishAIResponse` builds and publishes on
`cdnbuddy.chat.response`. -/
def mkAIResponseEvent (userID sessionID response : String) (now : Nat) :
    ChatEvent :=
  { type := EventAIResponse, userID := userID, sessionID := sessionID,
    message := response, timestamp := now }

/-- The `models.IntentRequest` that `RequestIntentAnalysis` builds: the
history snapshot is taken BEFORE the current user turn is appended. -/
def mkIntentRequest (store : SessionMap) (sessionID userMessage : String) :
    IntentRequest :=
  { sessionID := sessionID, userMessage := userMessage,
    conversationHistory := (getSessionHistory store sessionID).1,
    availableActions := [] }

/-- `Client.RequestIntentAnalysis`: snapshot history, append the user
turn, send the request.  Returns the reply (or the error), the updated
session store, and the request that went out on `intent.analyze`. -/
def RequestIntentAnalysis (store : SessionMap)
    (sessionID userMessage : String) (now : Nat)
    (intentService : IntentRequest → Option IntentResponse) :
    Except String IntentResponse × SessionMap × IntentRequest :=
  let conversationHistory := (getSessionHistory store sessionID).1
  let store := AppendToSession store sessionID "user" userMessage now
  let request : IntentRequest :=
    { sessionID := sessionID, userMessage := userMessage,
      conversationHistory := conversationHistory, availableActions := [] }
  match intentService request with
  | none =>
      (Except.error "failed to request intent analysis", store, request)
  | some response => (Except.ok response, store, request)

/-- The fallback apology of the chat handler in `cmd/server/main.go`. -/
def fallbackMessage : String :=
  "I'm sorry, I'm having trouble processing your request right now. Please try again."

/-- The chat handler registered by `setupEventHandlers` in
`cmd/server/main.go`: request intent analysis, branch on the status,
optionally run the CDN executor, publish exactly one AI-response event.
Results: the session store after the call, the published AI-response
events in order, and the intent responses handed to
`cdnService.ExecuteIntent` in order.  `now` is the clock reading inside
`RequestIntentAnalysis`, `nowPub` the one inside `PublishAIResponse`. -/
def handleChatEvent (store : SessionMap) (event : ChatEvent)
    (now nowPub : Nat)
    (intentService : IntentRequest → Option IntentResponse)
    (executeIntent : IntentResponse → Except String String) :
    SessionMap × List ChatEvent × List IntentResponse :=
  match RequestIntentAnalysis store event.sessionID event.message now
      intentService with
  | (Except.error _, store, _) =>
      (store,
        [mkAIResponseEvent event.userID event.sessionID fallbackMessage nowPub],
        [])
  | (Except.ok intentResponse, store, _) =>
      let branch : String × List IntentResponse :=
        match intentResponse.status with
        | "ERROR" => (intentResponse.userMessage, [])
        | "NEEDS_INFO" => (intentResponse.userMessage, [])
        | "READY" =>
            match intentResponse.action with
            | some _ =>
                match executeIntent intentResponse with
                | Except.ok result => (result, [intentResponse])
                | Except.error e =>
                    ("❌ Failed to complete action: " ++ e, [intentResponse])
            | none => (intentResponse.userMessage, [])
        | _ => (intentResponse.userMessage, [])
      (store,
        [mkAIResponseEvent event.userID event.sessionID branch.1 nowPub],
        branch.2)

/-! ### Typed event registry (`Subscriber.subscribe`) over NATS

`Subscriber.subscribe` does two things on every call: it appends the
handler to `s.handlers[subject]`, and it opens a NEW plain NATS
subscription on the subject whose callback runs every handler currently
registered for that subject, logging (and swallowing) handler errors.
Plain NATS subscriptions each receive every message published on their
subject, and a handler error is never reported back to the bus, so a
message is delivered once per subscription and never redelivered.
Handlers are identified by an index into a behaviour pool
`pool : Nat → String → Option String` (`some e` = the handler returned
error `e`). -/

/-- The registry plus the set of NATS subscriptions opened so far (one
entry per `subscribe` call, in order). -/
structure SubscriberState where
  handlers : List (String × List Nat)
  subs : List String
deriving DecidableEq, Repr

/-- The empty `Subscriber`. -/
def SubscriberState.empty : SubscriberState := { handlers := [], subs := [] }

/-- `Subscriber.subscribe`: append the handler to the registry for the
subject AND open one more NATS subscription on that subject. -/
def SubscriberState.subscribeHandler (s : SubscriberState)
    (subject : String) (h : Nat) : SubscriberState :=
  { handlers :=
      mapInsert s.handlers subject
        (((mapLookup s.handlers subject).getD []) ++ [h]),
    subs := s.subs ++ [subject] }

/-- Delivery of one published message: every subscription on the subject
receives it once; each subscription's callback runs all handlers
registered for the subject, in order, recording each handler's result
(`some e` = the error that gets logged; the loop continues regardless).
The flat trace lists every handler invocation in execution order. -/
def deliverMessage (s : SubscriberState)
    (pool : Nat → String → Option String) (subject data : String) :
    List (Nat × Option String) :=
  (s.subs.filter (fun t => t == subject)).foldl
    (fun trace _ =>
      trace ++ ((mapLookup s.handlers subject).getD []).map
        (fun h => (h, pool h data)))
    []

/-! ### CDN action dispatch (`cdn.Service.ExecuteIntent`)

The provider behind the `CDNProvider` interface is a parameter; every
provider invocation the dispatcher makes is recorded in a trace, in call
order.  The `json.Unmarshal` of the created service's config blob is a
parameter `jsonParse`; the unchecked Go type assertions
`configData["test_url"].(string)` / `["unique_name"].(string)` make the
whole call abort (a runtime fault, modelled as `none`) when the parsed
blob lacks a string at either key. -/

/-- `cdn.OriginConfig`. -/
structure OriginConfig where
  host : String := ""
  port : Nat := 0
  protocol : String := ""
  path : String := ""
deriving DecidableEq, Repr

/-- `cdn.CacheRule`. -/
structure CacheRule where
  path : String := ""
  ttl : Nat := 0
  browserTTL : Nat := 0
  alwaysCache : Bool := false
deriving DecidableEq, Repr

/-- `cdn.SSLConfig`. -/
structure SSLConfig where
  enabled : Bool := false
  certificate : String := ""
  privateKey : String := ""
deriving DecidableEq, Repr

/-- `cdn.ServiceConfig`. -/
structure ServiceConfig where
  name : String := ""
  origin : OriginConfig := {}
  rules : List CacheRule := []
  ssl : SSLConfig := {}
  custom : List (String × String) := []
deriving DecidableEq, Repr

/-- `domain.CDNService` (the fields the dispatcher reads). -/
structure CDNService where
  id : String := ""
  userID : String := ""
  provider : String := ""
  name : String := ""
  status : String := ""
  config : String := ""
  createdAt : Nat := 0
  updatedAt : Nat := 0
deriving DecidableEq, Repr

/-- One invocation of the `CDNProvider` interface. -/
inductive ProviderCall where
  | createService (config : ServiceConfig)
  | addDomain (serviceID domainName : String)
  | listServices
deriving DecidableEq, Repr

/-- The provider's behaviour (the `CDNProvider` methods the dispatcher
uses). -/
structure ProviderModel where
  createService : ServiceConfig → Except String CDNService
  addDomain : String → String → Except String Unit
  listServices : Except String (List CDNService)

/-- A JSON value as far as the dispatcher's type assertions care: a JSON
string, or anything else. -/
inductive JSONValue where
  | str (s : String)
  | other
deriving DecidableEq, Repr

/-- `cdn.getParam`: present non-nil entry gives its value, a missing key
or a nil entry gives `""`. -/
def getParam (params : List (String × Option String)) (key : String) :
    String :=
  match mapLookup params key with
  | some (some v) => v
  | _ => ""

/-- `cdn.GetOptimizationsSummary`. -/
def GetOptimizationsSummary : List String :=
  ["Aggressive caching for static assets (31-day TTL)",
   "Brotli compression enabled (30% better than gzip)",
   "Serve stale content if origin is unavailable",
   "Smart query string normalization",
   "Geographic caching optimization",
   "Connection pooling (100 concurrent connections)",
   "CORS enabled for modern web apps",
   "Auto-redirect and link preheating",
   "Optimized timeouts (10s connect, 30s TTFB)",
   "Secure HTTP methods (GET, POST, HEAD, OPTIONS only)",
   "Smart file encoding (skip pre-compressed files)",
   "Error caching (5-minute TTL to protect origin)"]

/-- `cdn.GetOptimizationsCount`. -/
def GetOptimizationsCount : Nat := GetOptimizationsSummary.length

/-- The `fmt.Sprintf` template of `handleSetupCDN`'s success reply. -/
def setupCDNResponse (testURL domainName origin uniqueName : String) :
    String :=
  let opts := GetOptimizationsSummary
  "✅ CDN configured successfully with " ++ itoa GetOptimizationsCount ++
  " optimizations!\n\n🧪 Test URL: " ++ testURL ++
  "\n🌐 Domain: " ++ domainName ++ " (Status: Waiting for DNS)\n📡 Origin: " ++
  origin ++ "\n\n🚀 Applied Optimizations:\n   • " ++ opts.getD 0 "" ++
  "\n   • " ++ opts.getD 1 "" ++ "\n   • " ++ opts.getD 2 "" ++
  "\n   • " ++ opts.getD 3 "" ++ "\n   • " ++ opts.getD 4 "" ++
  "\n   • ...and " ++ itoa (GetOptimizationsCount - 5) ++
  " more optimizations\n\n📌 To activate your domain:\n   1. Update DNS: Type: CNAME, Name: " ++
  domainName ++ ", Value: " ++ uniqueName ++
  ".cachefly.net, TTL: 300\n   2. Wait 5-10 minutes for DNS propagation\n\nYour CDN is ready to test now!"

/-- `cdn.Service.handleSetupCDN`.  `none` is the runtime fault of the
unchecked type assertions after a successful provider round trip. -/
def handleSetupCDN (provider : ProviderModel)
    (jsonParse : String → List (String × JSONValue))
    (params : List (String × Option String)) :
    Option (Except String String × List ProviderCall) :=
  let domainName := getParam params "domain"
  let origin := getParam params "origin_hostname"
  if domainName = "" ∨ origin = "" then
    some (Except.error "missing required parameters", [])
  else
    let config : ServiceConfig :=
      { name := domainName,
        origin := { host := origin, protocol := "https" },
        ssl := { enabled := true } }
    match provider.createService config with
    | Except.error e =>
        some (Except.error ("failed to create service: " ++ e),
          [ProviderCall.createService config])
    | Except.ok service =>
        match provider.addDomain service.id domainName with
        | Except.error e =>
            some (Except.error ("failed to add domain: " ++ e),
              [ProviderCall.createService config,
               ProviderCall.addDomain service.id domainName])
        | Except.ok _ =>
            let configData := jsonParse service.config
            match mapLookup configData "test_url",
                mapLookup configData "unique_name" with
            | some (JSONValue.str testURL), some (JSONValue.str uniqueName) =>
                some (Except.ok
                    (setupCDNResponse testURL domainName origin uniqueName),
                  [ProviderCall.createService config,
                   ProviderCall.addDomain service.id domainName])
            | _, _ => none

/-- `cdn.Service.handleAddDomain`. -/
def handleAddDomain (provider : ProviderModel)
    (params : List (String × Option String)) :
    Except String String × List ProviderCall :=
  let serviceID := getParam params "service_id"
  let domainName := getParam params "domain"
  if serviceID = "" ∨ domainName = "" then
    (Except.error "missing required parameters", [])
  else
    match provider.addDomain serviceID domainName with
    | Except.error e =>
        (Except.error ("failed to add domain: " ++ e),
          [ProviderCall.addDomain serviceID domainName])
    | Except.ok _ =>
        (Except.ok ("✅ Domain " ++ domainName ++ " added to CDN service!"),
          [ProviderCall.addDomain serviceID domainName])

/-- `cdn.Service.handleListServices`. -/
def handleListServices (provider : ProviderModel) :
    Except String String × List ProviderCall :=
  match provider.listServices with
  | Except.error e =>
      (Except.error ("failed to list services: " ++ e),
        [ProviderCall.listServices])
  | Except.ok services =>
      if services.length = 0 then
        (Except.ok "You don't have any CDN services yet.",
          [ProviderCall.listServices])
      else
        (Except.ok
          (services.enum.foldl
            (fun acc e =>
              acc ++ itoa (e.1 + 1) ++ ". " ++ e.2.name ++ " (Status: " ++
              e.2.status ++ ")\n")
            ("You have " ++ itoa services.length ++ " CDN service(s):\n\n")),
          [ProviderCall.listServices])

/-- `cdn.Service.ExecuteIntent`: nil action and unknown action are
rejected before any provider call; the three known actions dispatch to
their handlers. -/
def ExecuteIntent (provider : ProviderModel)
    (jsonParse : String → List (String × JSONValue))
    (intent : IntentResponse) :
    Option (Except String String × List ProviderCall) :=
  match intent.action with
  | none => some (Except.error "no action specified", [])
  | some a =>
      match a with
      | "SETUP_CDN" => handleSetupCDN provider jsonParse intent.parameters
      | "ADD_DOMAIN" => some (handleAddDomain provider intent.parameters)
      | "LIST_SERVICES" => some (handleListServices provider)
      | _ => some (Except.error ("unknown action: " ++ a), [])

/-! ## Claims -/

/-- A concrete plan for exercising the plan store at its expiry
boundary. -/
def plan0 : ExecutionPlan := { id := "p1", createdAt := 40, expiresAt := 100 }

/-- C1, counterexample: at `now = ExpiresAt` (so `now ≥ ExpiresAt`), `Get`
still returns the stored plan instead of the ExpiredError the claim
demands, because the code's check `time.Now().After(plan.ExpiresAt)` is
strict. -/
theorem planstore_get_boundary_counterexample :
    (Storage.Get (Storage.Store [] plan0).1 "p1" 100).1 = Except.ok plan0 ∧
    (Storage.Get (Storage.Store [] plan0).1 "p1" 100).1 ≠
      Except.error (PlanErr.expired "p1") := by
  constructor
  · rfl
  · intro h
    simp [Storage.Store, Storage.Get, mapInsert, mapLookup, plan0] at h

/-- C1 (amended): after `Store(p)`, `Get(p.ID)` while `now ≤ p.ExpiresAt`
returns the identical plan; while the id is present and `now > ExpiresAt`
(strictly after) it returns ExpiredError, specifically, not NotFoundError;
at any time after `Delete(planID)` it returns NotFoundError. -/
theorem planstore_get_lifecycle (s : PlanMap) (p : ExecutionPlan)
    (planID : String) (now : Nat) :
    (now ≤ p.expiresAt →
      (Storage.Get (Storage.Store s p).1 p.id now).1 = Except.ok p) ∧
    (∀ q : ExecutionPlan, mapLookup s planID = some q → q.expiresAt < now →
      (Storage.Get s planID now).1 = Except.error (PlanErr.expired planID)) ∧
    (Storage.Get (Storage.Delete s planID) planID now).1
      = Except.error (PlanErr.notFound planID) := by
  refine ⟨?_, ?_, ?_⟩
  · intro hle
    have hnot : ¬p.expiresAt < now := by omega
    simp [Storage.Store, Storage.Get, mapLookup_insert_self, hnot]
  · intro q hq hlt
    simp [Storage.Get, hq, hlt]
  · simp [Storage.Get, Storage.Delete, mapLookup_erase_self]

/-- C1, witness: the lifecycle theorem at concrete inputs: a read before
expiry, a read strictly after expiry, and a read after deletion. -/
theorem planstore_get_lifecycle_witness :
    (Storage.Get (Storage.Store [] plan0).1 "p1" 60).1 = Except.ok plan0 ∧
    (Storage.Get [("p1", plan0)] "p1" 101).1
      = Except.error (PlanErr.expired "p1") ∧
    (Storage.Get (Storage.Delete [("p1", plan0)] "p1") "p1" 500).1
      = Except.error (PlanErr.notFound "p1") :=
  ⟨(planstore_get_lifecycle [] plan0 "p1" 60).1 (by decide),
   (planstore_get_lifecycle [("p1", plan0)] plan0 "p1" 101).2.1 plan0 rfl
     (by decide),
   (planstore_get_lifecycle [("p1", plan0)] plan0 "p1" 500).2.2⟩

/-- C9: `Get` never mutates the plan store: for every store, every plan id
(including ids of expired entries) and every clock reading, the map of
plans `Get` hands back is the one it was given — no lazy eviction on
read. -/
theorem planstore_get_readonly (s : PlanMap) (planID : String) (now : Nat) :
    (Storage.Get s planID now).2 = s := by
  unfold Storage.Get
  cases mapLookup s planID with
  | none => rfl
  | some plan =>
      by_cases h : plan.expiresAt < now <;> simp [h]

/-- Run a finite sequence of `AppendToSession` calls
`(sessionID, role, message, timestamp)` in order. -/
def runAppends (c : SessionMap) :
    List (String × String × String × Nat) → SessionMap
  | [] => c
  | (sessionID, role, message, t) :: rest =>
      runAppends (AppendToSession c sessionID role message t) rest

theorem getSessionHistory_fst (c : SessionMap) (sessionID : String) :
    (getSessionHistory c sessionID).1 = (mapLookup c sessionID).getD [] := by
  unfold getSessionHistory
  cases mapLookup c sessionID <;> simp [copyHistory_eq]

theorem getSessionHistory_appendToSession (c : SessionMap)
    (sid sid' role message : String) (t : Nat) :
    (getSessionHistory (AppendToSession c sid' role message t) sid).1
    = if sid' = sid
      then (getSessionHistory c sid).1 ++ [⟨role, message, t⟩]
      else (getSessionHistory c sid).1 := by
  have hbase :
      ∀ c' : SessionMap, mapLookup c' sid' = mapLookup c sid' ∨
        (mapLookup c sid' = none ∧ mapLookup c' sid' = some []) →
      (∀ k, k ≠ sid' → mapLookup c' k = mapLookup c k) →
      (getSessionHistory (mapInsert c' sid'
          (((mapLookup c' sid').getD []) ++ [⟨role, message, t⟩])) sid).1
      = if sid' = sid
        then (getSessionHistory c sid).1 ++ [⟨role, message, t⟩]
        else (getSessionHistory c sid).1 := by
    intro c' hsame hother
    by_cases h : sid' = sid
    · subst h
      rw [getSessionHistory_fst, mapLookup_insert_self]
      rcases hsame with hsame | ⟨hnone, hsome⟩
      · simp [getSessionHistory_fst, hsame]
      · simp [getSessionHistory_fst, hnone, hsome]
    · rw [getSessionHistory_fst, mapLookup_insert_ne _ _ h,
        hother sid (fun hh => h hh.symm), getSessionHistory_fst]
      simp [h]
  unfold AppendToSession
  by_cases hpres : (mapLookup c sid').isSome
  · simp only [hpres, if_true]
    exact hbase c (Or.inl rfl) (fun _ _ => rfl)
  · simp only [hpres, if_false]
    refine hbase (mapInsert c sid' []) ?_ ?_
    · right
      refine ⟨?_, mapLookup_insert_self c sid' []⟩
      cases hl : mapLookup c sid' with
      | none => rfl
      | some v => rw [hl] at hpres; simp at hpres
    · intro k hk
      exact mapLookup_insert_ne c [] (fun hh => hk hh.symm)

theorem runAppends_history (calls : List (String × String × String × Nat)) :
    ∀ (c : SessionMap) (sid : String),
      (getSessionHistory (runAppends c calls) sid).1
      = (getSessionHistory c sid).1 ++
          (calls.filter (fun q => q.1 == sid)).map
            (fun q => ⟨q.2.1, q.2.2.1, q.2.2.2⟩) := by
  induction calls with
  | nil => intro c sid; simp [runAppends]
  | cons q rest ih =>
      obtain ⟨sid', role, message, t⟩ := q
      intro c sid
      rw [show runAppends c ((sid', role, message, t) :: rest)
            = runAppends (AppendToSession c sid' role message t) rest from rfl,
        ih, getSessionHistory_appendToSession]
      by_cases h : sid' = sid
      · subst h
        simp [List.filter_cons]
      · have hb : (sid' == sid) = false := by
          simpa using h
        simp [List.filter_cons, h, hb]

/-- C2: starting from an empty store, for every finite sequence of
`AppendToSession(sessionID, role, text)` calls and every session id,
`getSessionHistory(sessionID)` returns exactly the turns appended for
that session, in call order; moreover a read passes the store through
untouched, and the value it returns is the element-wise copy the code
builds (`copyHistory`), so in this value-semantics model no mutation of
a returned sequence can reach the store. -/
theorem session_history_faithful :
    (∀ (calls : List (String × String × String × Nat)) (sid : String),
      (getSessionHistory (runAppends [] calls) sid).1
      = (calls.filter (fun q => q.1 == sid)).map
          (fun q => ⟨q.2.1, q.2.2.1, q.2.2.2⟩)) ∧
    (∀ (c : SessionMap) (sid : String), (getSessionHistory c sid).2 = c) ∧
    (∀ (c : SessionMap) (sid : String),
      (getSessionHistory c sid).1
        = copyHistory ((mapLookup c sid).getD [])) := by
  refine ⟨?_, ?_, ?_⟩
  · intro calls sid
    rw [runAppends_history]
    simp [getSessionHistory, mapLookup]
  · intro c sid
    unfold getSessionHistory
    cases mapLookup c sid <;> rfl
  · intro c sid
    rw [getSessionHistory_fst, copyHistory_eq]

/-- C3, counterexample: for a fresh session and the chat message "hi",
the request sent on `intent.analyze` carries an empty conversation
history, while the Session History Store at the point the request goes
out already records the user's turn (it is appended before the bus
call).  The request therefore does not carry the history as recorded in
the store at that point. -/
theorem intent_request_snapshot_counterexample :
    ((RequestIntentAnalysis [] "s1" "hi" 7 (fun _ => none)).2.2).conversationHistory
      ≠ (getSessionHistory
          (RequestIntentAnalysis [] "s1" "hi" 7 (fun _ => none)).2.1 "s1").1 := by
  decide

/-- C3 (amended): the classification request sent on `intent.analyze`
carries the session id, the current user message, and the session's
conversation history as snapshotted BEFORE the current user turn is
appended to the store — i.e. the history excludes the current message
(and `available_actions` is empty). -/
theorem intent_request_payload (store : SessionMap)
    (sessionID userMessage : String) (now : Nat)
    (intentService : IntentRequest → Option IntentResponse) :
    (RequestIntentAnalysis store sessionID userMessage now
        intentService).2.2
    = { sessionID := sessionID, userMessage := userMessage,
        conversationHistory := (getSessionHistory store sessionID).1,
        availableActions := [] } := by
  unfold RequestIntentAnalysis
  cases h : intentService
      { sessionID := sessionID, userMessage := userMessage,
        conversationHistory := (getSessionHistory store sessionID).1,
        availableActions := [] } <;>
    simp [h]

/-- C4: when the `intent.analyze` round trip fails or times out, the chat
handler publishes exactly one AI-response event, carrying the fallback
apology, invokes the executor not at all, and the session history at that
point still holds the user's turn, appended before the attempt. -/
theorem chat_timeout_fallback (store : SessionMap) (event : ChatEvent)
    (now nowPub : Nat)
    (intentService : IntentRequest → Option IntentResponse)
    (executeIntent : IntentResponse → Except String String)
    (h : intentService (mkIntentRequest store event.sessionID event.message)
          = none) :
    (handleChatEvent store event now nowPub intentService executeIntent).2.1
      = [mkAIResponseEvent event.userID event.sessionID fallbackMessage nowPub] ∧
    (handleChatEvent store event now nowPub intentService executeIntent).2.2
      = [] ∧
    (getSessionHistory
        (handleChatEvent store event now nowPub intentService executeIntent).1
        event.sessionID).1
      = (getSessionHistory store event.sessionID).1 ++
          [⟨"user", event.message, now⟩] := by
  have hreq : mkIntentRequest store event.sessionID event.message
      = { sessionID := event.sessionID, userMessage := event.message,
          conversationHistory := (getSessionHistory store event.sessionID).1,
          availableActions := [] } := rfl
  rw [hreq] at h
  unfold handleChatEvent RequestIntentAnalysis
  simp only [h]
  refine ⟨trivial, trivial, ?_⟩
  rw [getSessionHistory_appendToSession]
  simp

/-- C4, witness: the timeout theorem at a concrete store, chat event and
always-failing intent service. -/
theorem chat_timeout_fallback_witness :
    (handleChatEvent [] ⟨"chat.message", "u1", "s1", "hello", 3⟩ 5 6
        (fun _ => none) (fun _ => Except.error "x")).2.1
      = [mkAIResponseEvent "u1" "s1" fallbackMessage 6] ∧
    (handleChatEvent [] ⟨"chat.message", "u1", "s1", "hello", 3⟩ 5 6
        (fun _ => none) (fun _ => Except.error "x")).2.2 = [] ∧
    (getSessionHistory
        (handleChatEvent [] ⟨"chat.message", "u1", "s1", "hello", 3⟩ 5 6
          (fun _ => none) (fun _ => Except.error "x")).1 "s1").1
      = [⟨"user", "hello", 5⟩] := by
  have h := chat_timeout_fallback [] ⟨"chat.message", "u1", "s1", "hello", 3⟩
    5 6 (fun _ => none) (fun _ => Except.error "x") rfl
  simpa [getSessionHistory, mapLookup] using h

/-- C5: a classification reply with status `ERROR` and user message
"Please rephrase" makes the chat handler publish exactly one AI-response
event whose message is "Please rephrase", and the CDN action executor is
never invoked. -/
theorem chat_error_status_reply (store : SessionMap) (event : ChatEvent)
    (now nowPub : Nat)
    (intentService : IntentRequest → Option IntentResponse)
    (executeIntent : IntentResponse → Except String String)
    (resp : IntentResponse)
    (hsvc : intentService (mkIntentRequest store event.sessionID event.message)
          = some resp)
    (hst : resp.status = "ERROR")
    (hmsg : resp.userMessage = "Please rephrase") :
    (handleChatEvent store event now nowPub intentService executeIntent).2.1
      = [mkAIResponseEvent event.userID event.sessionID "Please rephrase"
          nowPub] ∧
    (handleChatEvent store event now nowPub intentService executeIntent).2.2
      = [] := by
  have hreq : mkIntentRequest store event.sessionID event.message
      = { sessionID := event.sessionID, userMessage := event.message,
          conversationHistory := (getSessionHistory store event.sessionID).1,
          availableActions := [] } := rfl
  rw [hreq] at hsvc
  unfold handleChatEvent RequestIntentAnalysis
  simp only [hsvc, hst, hmsg]
  exact ⟨trivial, trivial⟩

/-- C5, witness: the ERROR-status theorem at a concrete chat event and a
service that replies ERROR / "Please rephrase". -/
theorem chat_error_status_reply_witness :
    (handleChatEvent [] ⟨"chat.message", "u1", "s1", "broken", 3⟩ 5 6
        (fun _ => some { status := "ERROR", userMessage := "Please rephrase",
                         errorMessage := some "bad input" })
        (fun _ => Except.ok "done")).2.1
      = [mkAIResponseEvent "u1" "s1" "Please rephrase" 6] ∧
    (handleChatEvent [] ⟨"chat.message", "u1", "s1", "broken", 3⟩ 5 6
        (fun _ => some { status := "ERROR", userMessage := "Please rephrase",
                         errorMessage := some "bad input" })
        (fun _ => Except.ok "done")).2.2 = [] :=
  chat_error_status_reply [] ⟨"chat.message", "u1", "s1", "broken", 3⟩ 5 6
    (fun _ => some { status := "ERROR", userMessage := "Please rephrase",
                     errorMessage := some "bad input" })
    (fun _ => Except.ok "done")
    { status := "ERROR", userMessage := "Please rephrase",
      errorMessage := some "bad input" }
    rfl rfl rfl

/-- The READY / SETUP_CDN classification result of the claim, with the
parameters `{domain: "example.com", origin: "origin.example.com"}`. -/
def intentSetup : IntentResponse :=
  { sessionID := "s1", action := some "SETUP_CDN", status := "READY",
    parameters := [("domain", some "example.com"),
                   ("origin", some "origin.example.com")] }

/-- C6, counterexample: `CreatedAt` and `ExpiresAt` come from two separate
`time.Now()` calls; when the clock advances by one nanosecond between
them, `expires_at` is `created_at + 5 minutes + 1ns`, not
`created_at + 5 minutes` exactly. -/
theorem build_plan_expiry_counterexample :
    (BuildExecutionPlan intentSetup 0 0 1).expiresAt
      ≠ (BuildExecutionPlan intentSetup 0 0 1).createdAt + fiveMinutesNs := by
  decide

/-- C6 (amended): for a READY / SETUP_CDN result with parameters
`{domain: "example.com", origin: "origin.example.com"}` the plan's steps
include a step containing "example.com" and a step containing
"origin.example.com", and `expires_at` equals the clock reading taken at
its initialisation plus exactly 5 minutes — hence equals
`created_at + 5 minutes` exactly whenever the two successive
`time.Now()` readings coincide. -/
theorem build_plan_setup_cdn (intent : IntentResponse)
    (now1 now2 now3 : Nat)
    (ha : intent.action = some "SETUP_CDN")
    (hd : paramIndex intent.parameters "domain" = some "example.com")
    (ho : paramIndex intent.parameters "origin"
          = some "origin.example.com") :
    (∃ step ∈ (BuildExecutionPlan intent now1 now2 now3).steps,
      ∃ l r : List Char, step.data = l ++ "example.com".data ++ r) ∧
    (∃ step ∈ (BuildExecutionPlan intent now1 now2 now3).steps,
      ∃ l r : List Char, step.data = l ++ "origin.example.com".data ++ r) ∧
    (BuildExecutionPlan intent now1 now2 now3).expiresAt
      = now3 + fiveMinutesNs ∧
    (now3 = now2 →
      (BuildExecutionPlan intent now1 now2 now3).expiresAt
        = (BuildExecutionPlan intent now1 now2 now3).createdAt
            + fiveMinutesNs) := by
  have hsteps : (BuildExecutionPlan intent now1 now2 now3).steps
      = ["Create CDN service for example.com",
         "Configure origin: origin.example.com",
         "Enable SSL certificate",
         "Configure caching rules"] := by
    simp [BuildExecutionPlan, ha, hd, ho]
  have hexp : (BuildExecutionPlan intent now1 now2 now3).expiresAt
      = now3 + fiveMinutesNs := by
    simp [BuildExecutionPlan, ha, hd, ho]
  have hcre : (BuildExecutionPlan intent now1 now2 now3).createdAt
      = now2 := by
    simp [BuildExecutionPlan, ha, hd, ho]
  refine ⟨?_, ?_, hexp, ?_⟩
  · refine ⟨"Create CDN service for example.com", ?_, ?_⟩
    · rw [hsteps]; simp
    · exact ⟨"Create CDN service for ".data, [], by decide⟩
  · refine ⟨"Configure origin: origin.example.com", ?_, ?_⟩
    · rw [hsteps]; simp
    · exact ⟨"Configure origin: ".data, [], by decide⟩
  · intro heq
    rw [hexp, hcre, heq]

/-- C6, witness: the SETUP_CDN plan-shape theorem at the concrete
classification result and coinciding clock readings. -/
theorem build_plan_setup_cdn_witness :
    (∃ step ∈ (BuildExecutionPlan intentSetup 0 5 5).steps,
      ∃ l r : List Char, step.data = l ++ "example.com".data ++ r) ∧
    (∃ step ∈ (BuildExecutionPlan intentSetup 0 5 5).steps,
      ∃ l r : List Char,
        step.data = l ++ "origin.example.com".data ++ r) ∧
    (BuildExecutionPlan intentSetup 0 5 5).expiresAt = 5 + fiveMinutesNs ∧
    (5 = 5 →
      (BuildExecutionPlan intentSetup 0 5 5).expiresAt
        = (BuildExecutionPlan intentSetup 0 5 5).createdAt
            + fiveMinutesNs) :=
  build_plan_setup_cdn intentSetup 0 5 5 rfl rfl rfl

/-- C7: the code run at the claim's scenario.  Registering two handlers
for the chat event kind opens two plain NATS subscriptions on
`cdnbuddy.chat`, each of whose callbacks runs ALL handlers registered
for the subject; one inbound message is therefore delivered once per
subscription and every handler runs exactly TWICE (not once as the claim
states), in the order h0, h1, h0, h1 — the second handler still runs
after the first one errors, and nothing is redelivered beyond the two
subscriptions' single deliveries. -/
theorem subscriber_duplicate_dispatch :
    deliverMessage
      ((SubscriberState.empty.subscribeHandler "cdnbuddy.chat" 0).subscribeHandler
        "cdnbuddy.chat" 1)
      (fun h _ => if h = 0 then some "handler failure" else none)
      "cdnbuddy.chat" "payload"
    = [(0, some "handler failure"), (1, none),
       (0, some "handler failure"), (1, none)] := by
  decide

/-- Two distinct classification results used to witness two distinct
plan-creation calls. -/
def intentA : IntentResponse := { status := "READY", action := some "SETUP_CDN" }

/-- A second, different classification result. -/
def intentB : IntentResponse := { status := "READY", action := some "PURGE_CACHE" }

/-- C8, counterexample: two distinct plan-creation calls (different
intents, different later clock readings) whose id-generation
`time.Now().UnixNano()` readings coincide produce two different plans
with the SAME id `plan_42` — the id carries no random component, only
the timestamp. -/
theorem plan_id_collision_counterexample :
    BuildExecutionPlan intentA 42 0 0 ≠ BuildExecutionPlan intentB 42 9 9 ∧
    (BuildExecutionPlan intentA 42 0 0).id
      = (BuildExecutionPlan intentB 42 9 9).id := by
  decide

theorem build_plan_id (intent : IntentResponse) (now1 now2 now3 : Nat) :
    (BuildExecutionPlan intent now1 now2 now3).id = generatePlanID now1 := by
  unfold BuildExecutionPlan
  cases intent.action with
  | none => rfl
  | some a =>
      by_cases h1 : a = "SETUP_CDN"
      · simp [h1]
      · by_cases h2 : a = "PURGE_CACHE" <;> simp [h1, h2]

theorem generatePlanID_injective : Function.Injective generatePlanID := by
  intro t1 t2 h
  have hdata : (generatePlanID t1).data = (generatePlanID t2).data :=
    congrArg String.data h
  have hsplit : ∀ t : Nat,
      (generatePlanID t).data = "plan_".data ++ (itoa t).data := by
    intro t
    rfl
  rw [hsplit, hsplit] at hdata
  have hitoa : (itoa t1).data = (itoa t2).data :=
    List.append_cancel_left hdata
  exact itoa_injective (String.ext hitoa)

/-- C8 (amended): plan ids are injective in the id-generation clock
reading: any two plan-creation calls whose `time.Now().UnixNano()`
readings differ produce distinct ids (uniqueness can fail only when two
calls observe the same nanosecond, as the counterexample shows). -/
theorem plan_id_distinct_times (i1 i2 : IntentResponse)
    (t1 t2 a b c d : Nat) (h : t1 ≠ t2) :
    (BuildExecutionPlan i1 t1 a b).id ≠ (BuildExecutionPlan i2 t2 c d).id := by
  rw [build_plan_id, build_plan_id]
  exact fun hh => h (generatePlanID_injective hh)

/-- C8, witness: the distinct-timestamp theorem at the concrete readings
1 and 2. -/
theorem plan_id_distinct_times_witness :
    (BuildExecutionPlan intentA 1 0 0).id
      ≠ (BuildExecutionPlan intentB 2 0 0).id :=
  plan_id_distinct_times intentA intentB 1 2 0 0 0 0 (by decide)

/-- A provider stub for exercising `ExecuteIntent` paths that must never
reach the provider. -/
def providerStub : ProviderModel :=
  { createService := fun _ => Except.error "unreachable",
    addDomain := fun _ _ => Except.error "unreachable",
    listServices := Except.error "unreachable" }

/-- C10: `ExecuteIntent` rejects a nil action and an action outside
SETUP_CDN / ADD_DOMAIN / LIST_SERVICES with an error and an empty
provider-call trace; `getParam` treats a present-but-nil map entry
exactly like a missing key; and a SETUP_CDN or ADD_DOMAIN request whose
required parameter resolves to `""` (in particular, a nil entry) gets
the "missing required parameters" error before any provider call. -/
theorem execute_intent_guards (provider : ProviderModel)
    (jsonParse : String → List (String × JSONValue)) :
    (∀ intent : IntentResponse, intent.action = none →
      ExecuteIntent provider jsonParse intent
        = some (Except.error "no action specified", [])) ∧
    (∀ (intent : IntentResponse) (a : String), intent.action = some a →
      a ≠ "SETUP_CDN" → a ≠ "ADD_DOMAIN" → a ≠ "LIST_SERVICES" →
      ExecuteIntent provider jsonParse intent
        = some (Except.error ("unknown action: " ++ a), [])) ∧
    (∀ (params : List (String × Option String)) (key : String),
      mapLookup params key = none ∨ mapLookup params key = some none →
      getParam params key = "") ∧
    (∀ intent : IntentResponse, intent.action = some "SETUP_CDN" →
      getParam intent.parameters "domain" = "" ∨
        getParam intent.parameters "origin_hostname" = "" →
      ExecuteIntent provider jsonParse intent
        = some (Except.error "missing required parameters", [])) ∧
    (∀ intent : IntentResponse, intent.action = some "ADD_DOMAIN" →
      getParam intent.parameters "service_id" = "" ∨
        getParam intent.parameters "domain" = "" →
      ExecuteIntent provider jsonParse intent
        = some (Except.error "missing required parameters", [])) := by
  refine ⟨?_, ?_, ?_, ?_, ?_⟩
  · intro intent h
    simp [ExecuteIntent, h]
  · intro intent a h h1 h2 h3
    simp only [ExecuteIntent, h]
  · intro params key h
    rcases h with h | h <;> simp [getParam, h]
  · intro intent h hmiss
    simp only [ExecuteIntent, h, handleSetupCDN]
    rcases hmiss with h' | h' <;> simp [h']
  · intro intent h hmiss
    simp only [ExecuteIntent, h, handleAddDomain]
    rcases hmiss with h' | h' <;> simp [h']

/-- C10, witness: the guard theorem at concrete intents — nil action, the
unknown action PURGE_CACHE, a nil `domain` entry, a SETUP_CDN request
with a nil origin_hostname entry, and an ADD_DOMAIN request with a nil
service_id entry — against a provider stub that would error if it were
ever reached. -/
theorem execute_intent_guards_witness :
    ExecuteIntent providerStub (fun _ => []) { action := none }
      = some (Except.error "no action specified", []) ∧
    ExecuteIntent providerStub (fun _ => []) { action := some "PURGE_CACHE" }
      = some (Except.error ("unknown action: " ++ "PURGE_CACHE"), []) ∧
    getParam [("domain", none)] "domain" = "" ∧
    ExecuteIntent providerStub (fun _ => [])
        { action := some "SETUP_CDN",
          parameters := [("domain", some "example.com"),
                         ("origin_hostname", none)] }
      = some (Except.error "missing required parameters", []) ∧
    ExecuteIntent providerStub (fun _ => [])
        { action := some "ADD_DOMAIN",
          parameters := [("service_id", none),
                         ("domain", some "example.com")] }
      = some (Except.error "missing required parameters", []) :=
  ⟨(execute_intent_guards providerStub (fun _ => [])).1 _ rfl,
   (execute_intent_guards providerStub (fun _ => [])).2.1 _ "PURGE_CACHE" rfl
     (by decide) (by decide) (by decide),
   (execute_intent_guards providerStub (fun _ => [])).2.2.1 _ "domain"
     (Or.inr rfl),
   (execute_intent_guards providerStub (fun _ => [])).2.2.2.1 _ rfl
     (Or.inr (by decide)),
   (execute_intent_guards providerStub (fun _ => [])).2.2.2.2 _ rfl
     (Or.inl (by decide))⟩
